import Mathlib

/-!
Verification of the d20roll reactive core (src/main.rs, src/roll.rs).

The embedding mirrors the Rust source:
  * `RollOutcome`, `lazy_roll`       — src/roll.rs
  * `Model`, `Message`, `Win.update` — src/main.rs (the Relm `Update` impl)
The external dice evaluator (the `rfyl` crate) and the widget toolkit
(gtk) are collaborators; they are abstracted at their interface boundary
exactly as the source consumes them.
-/

namespace D20

/-- Embeds `RollOutcome` from src/roll.rs: the outcome of a roll, tagged
with the description of the roll that generated it. -/
structure RollOutcome where
  descriptor : String
  outcome : Int
deriving DecidableEq, Repr

/-- Abstracts the result object returned by the external evaluator
`rfyl::roll` on success.  The source reads exactly two things from it:
the canonical formula string (`get_rolls_formula_string_as_infix`) and
the integer result (`get_result`). -/
structure Rolls where
  formula_string : String
  result : Int
deriving DecidableEq, Repr

/-- An evaluator is the external `rfyl::roll` function: expression text in,
structured result or failure (`none` models `Err(_)`) out. -/
abbrev Evaluator : Type := String → Option Rolls

/-- Embeds `lazy_roll` from src/roll.rs: run the evaluator on the captured
expression; on `Err` the future resolves to `err(())` (here `none`), on `Ok`
it builds a `RollOutcome` from the formula string and the result. -/
def lazy_roll (eval : Evaluator) (s : String) : Option RollOutcome :=
  match eval s with
  | Option.none => Option.none
  | Option.some rolls =>
      Option.some { descriptor := rolls.formula_string, outcome := rolls.result }

/-- Embeds `Model` from src/main.rs (the `relm` handle, pure plumbing, is
omitted): the current content of the text entry box and all the rolls the
program has computed this session. -/
structure Model where
  textentry_content : String
  rolls : List RollOutcome
deriving DecidableEq, Repr

/-- Embeds the `Message` enum from src/main.rs: all the actions available
to the program. -/
inductive Message where
  | ChangeInput
  | StartRoll
  | FinishRoll (outcome : RollOutcome)
  | Quit
deriving DecidableEq, Repr

/-- The bare constructor tag of a `Message`, used to count the variants of
the closed event vocabulary. -/
inductive MessageTag where
  | ChangeInput
  | StartRoll
  | FinishRoll
  | Quit
deriving DecidableEq, Repr, Fintype

/-- Map each message to its constructor tag. -/
def Message.tag : Message → MessageTag
  | Message.ChangeInput => MessageTag.ChangeInput
  | Message.StartRoll => MessageTag.StartRoll
  | Message.FinishRoll _ => MessageTag.FinishRoll
  | Message.Quit => MessageTag.Quit

/-- A view-update command issued to the widget layer: `set_text` on the
entry, or the full rebuild of the rolls `ListStore`. -/
inductive ViewCmd where
  | setInputText (s : String)
  | replaceRows (rows : List (String × String))
deriving DecidableEq, Repr

/-- One displayed row of the rolls store: the descriptor and the outcome
formatted with the Display trait (column 0 and column 1). -/
def renderRow (r : RollOutcome) : String × String :=
  (r.descriptor, toString r.outcome)

/-- Embeds the rebuild loop of src/main.rs lines 115-123: clear the store,
then for each roll (in insertion order) prepend a row holding the
descriptor and the formatted outcome.  The fold prepends exactly as the
loop does, so the resulting store lists the most recent roll first. -/
def rebuildStore (rolls : List RollOutcome) : List (String × String) :=
  List.foldl (fun acc r => renderRow r :: acc) [] rolls

/-- Embeds `Win` from src/main.rs restricted to the state the reducer
touches: the model, the `Entry` widget's displayed text, and the contents
of the rolls `ListStore` (head = top row). -/
structure Win where
  model : Model
  inputText : String
  rollsRows : List (String × String)
deriving DecidableEq, Repr

/-- Models `gtk::Entry::get_text`.  The gtk-rs binding returns an
`Option<String>`; GTK documents that `gtk_entry_get_text` never returns
NULL for an `Entry`, so the binding always yields `Some` of the displayed
text. -/
def input_get_text (w : Win) : Option String :=
  Option.some w.inputText

/-- Everything one `update` invocation produces: the new retained state,
the expressions handed to spawned roll futures, the view-update commands
issued, and whether the gtk quit call was made. -/
structure UpdateResult where
  win : Win
  spawned : List String
  cmds : List ViewCmd
  quit : Bool
deriving DecidableEq, Repr

/-- Embeds `Win::update` from src/main.rs lines 76-125.  The match arms
set the model and the two dirty flags exactly as the source does; the two
trailing `if` blocks issue the view commands and apply their widget
effects.  The gtk quit call made by `Message::Quit` is recorded in `quit`. -/
def update (w : Win) (event : Message) : UpdateResult :=
  let step :
      Model × List String × Bool × Bool × Bool :=
    match event with
    | Message.Quit =>
        (w.model, [], true, false, false)
    | Message.ChangeInput =>
        ({ w.model with textentry_content := w.inputText }, [], false, true, false)
    | Message.StartRoll =>
        let spec := w.model.textentry_content
        ({ w.model with textentry_content := "" }, [spec], false, true, false)
    | Message.FinishRoll outcome =>
        ({ w.model with rolls := w.model.rolls ++ [outcome] }, [], false, false, true)
  match step with
  | (model, spawned, quit, input_invalid, output_invalid) =>
    let inputText := if input_invalid then model.textentry_content else w.inputText
    let cmds1 : List ViewCmd :=
      if input_invalid then [ViewCmd.setInputText model.textentry_content] else []
    let rows := if output_invalid then rebuildStore model.rolls else w.rollsRows
    let cmds2 : List ViewCmd :=
      if output_invalid then [ViewCmd.replaceRows (rebuildStore model.rolls)] else []
    { win := { model := model, inputText := inputText, rollsRows := rows },
      spawned := spawned, cmds := cmds1 ++ cmds2, quit := quit }

/-- `Win::update` with the panic point of the source made explicit: the
`Message::ChangeInput` arm unwraps `self.input.get_text()`, which would
panic (`none` here) if the toolkit returned no text.  Every other arm is
infallible. -/
def update_checked (w : Win) (event : Message) : Option UpdateResult :=
  match event with
  | Message.ChangeInput =>
      match input_get_text w with
      | Option.none => Option.none
      | Option.some _ => Option.some (update w Message.ChangeInput)
  | e => Option.some (update w e)

/-- Embeds `Relm::connect_exec_ignore_err` at the roll future's boundary:
on success fire `FinishRoll(outcome)`, on failure deliver nothing. -/
def connect_exec_ignore_err (result : Option RollOutcome) : List Message :=
  match result with
  | Option.some o => [Message.FinishRoll o]
  | Option.none => []

/-- The events a spawned roll task for expression `s` injects back into
the dispatcher: the task runs `lazy_roll` and its completion is wired
through `connect_exec_ignore_err`. -/
def taskEvents (eval : Evaluator) (s : String) : List Message :=
  connect_exec_ignore_err (lazy_roll eval s)

/-- The accumulated effect of dispatching a list of events through
`update`, one at a time, in order. -/
structure RunResult where
  win : Win
  spawned : List String
  cmds : List ViewCmd
deriving DecidableEq, Repr

/-- Dispatch a list of events through `update` in order, accumulating the
spawned expressions and the issued view commands. -/
def runEvents (w : Win) : List Message → RunResult
  | [] => { win := w, spawned := [], cmds := [] }
  | e :: rest =>
      let r := update w e
      let rr := runEvents r.win rest
      { win := rr.win, spawned := r.spawned ++ rr.spawned, cmds := r.cmds ++ rr.cmds }

/-- Modelled from the spec: the event loop itself lives in the external
gtk/relm runtime, not under src/.  Per the spec's state machine, the
session is `Running` until `ShutdownRequested` (`Message::Quit`, which
makes the gtk quit call) is handled, after which no further event is
processed. -/
structure Session where
  win : Win
  running : Bool
deriving DecidableEq, Repr

/-- Modelled from the spec: one step of the event loop.  While running,
the event is handed to `Win::update`; a `Quit` ends the loop.  After the
loop has ended, events are no longer processed: nothing is mutated and no
command is issued. -/
def sessionStep (s : Session) (e : Message) : Session × List String × List ViewCmd :=
  if s.running then
    let r := update s.win e
    ({ win := r.win, running := !r.quit }, r.spawned, r.cmds)
  else
    (s, [], [])

/-- Modelled from the spec: run the event loop over a list of events,
accumulating spawned expressions and issued view commands. -/
def sessionRun (s : Session) : List Message → Session × List String × List ViewCmd
  | [] => (s, [], [])
  | e :: rest =>
      match sessionStep s e with
      | (s1, sp, cs) =>
        match sessionRun s1 rest with
        | (s2, sp2, cs2) => (s2, sp ++ sp2, cs ++ cs2)

/-- The outcome delivered by an event, when the event is a `FinishRoll`. -/
def finishOutcome : Message → Option RollOutcome
  | Message.FinishRoll o => Option.some o
  | _ => Option.none

/-- A concrete `Win` state: the application's initial state (empty entry,
no rolls, empty widgets), as built by `Update::model` and `Widget::view`. -/
def win0 : Win :=
  { model := { textentry_content := "", rolls := [] }, inputText := "", rollsRows := [] }

/-- A concrete `Win` state whose entry holds the expression `2d6+1`. -/
def win1 : Win :=
  { model := { textentry_content := "2d6+1", rolls := [] }, inputText := "2d6+1",
    rollsRows := [] }

/-- An evaluator that fails on every expression. -/
def evalFail : Evaluator := fun _ => Option.none

/-- A concrete roll outcome for the expression `1d20`. -/
def outcome1d20 : RollOutcome := { descriptor := "1d20", outcome := 20 }

/-- A concrete roll outcome for the expression `2d4`. -/
def outcome2d4 : RollOutcome := { descriptor := "2d4", outcome := 5 }

/-- One `update` step changes `rolls` exactly by appending the outcome of a
`FinishRoll`, and by nothing otherwise. -/
theorem update_rolls (w : Win) (e : Message) :
    (update w e).win.model.rolls = w.model.rolls ++ (finishOutcome e).toList := by
  cases e <;> simp [update, finishOutcome]

/-- Dispatching a list of events appends to `rolls` exactly the outcomes of
its `FinishRoll` events, in order. -/
theorem runEvents_rolls (w : Win) (es : List Message) :
    (runEvents w es).win.model.rolls = w.model.rolls ++ es.filterMap finishOutcome := by
  induction es generalizing w with
  | nil => simp [runEvents]
  | cons e rest ih => cases e <;> simp [runEvents, ih, update, finishOutcome]

/-- The store-rebuild loop produces the rendered history in reverse
insertion order: most recently appended roll first. -/
theorem rebuildStore_eq_reverse_map (rolls : List RollOutcome) :
    rebuildStore rolls = (rolls.map renderRow).reverse := by
  suffices h : ∀ acc, List.foldl (fun acc r => renderRow r :: acc) acc rolls
      = (rolls.map renderRow).reverse ++ acc by
    simpa [rebuildStore] using h []
  induction rolls with
  | nil => intro acc; simp
  | cons r t ih => intro acc; simp [ih]

/-- Once the event loop has stopped running, no event changes anything. -/
theorem sessionRun_halted (s : Session) (h : s.running = false) (es : List Message) :
    sessionRun s es = (s, [], []) := by
  induction es with
  | nil => rfl
  | cons e rest ih => simp [sessionRun, sessionStep, h, ih]

/-- C1: handling `StartRoll` when `textentry_content = s` spawns an
evaluation task that receives exactly `s` — the head of the spawn log is
`s` no matter which events follow — and immediately afterwards
`textentry_content` is the empty string. -/
theorem submit_captures_then_clears (w : Win) (s : String) (rest : List Message)
    (h : w.model.textentry_content = s) :
    (runEvents w (Message.StartRoll :: rest)).spawned
      = s :: (runEvents (update w Message.StartRoll).win rest).spawned ∧
    (update w Message.StartRoll).win.model.textentry_content = "" := by
  subst h
  exact ⟨by simp [runEvents, update], by simp [update]⟩

/-- C1 witness: from entry text `2d6+1`, a submission followed by an input
change still spawns a task for `2d6+1`, and the entry is cleared. -/
theorem submit_captures_then_clears_witness :
    win1.model.textentry_content = "2d6+1" ∧
    ((runEvents win1 (Message.StartRoll :: [Message.ChangeInput])).spawned
        = "2d6+1" :: (runEvents (update win1 Message.StartRoll).win [Message.ChangeInput]).spawned ∧
      (update win1 Message.StartRoll).win.model.textentry_content = "") :=
  ⟨rfl, submit_captures_then_clears win1 "2d6+1" [Message.ChangeInput] rfl⟩

/-- C2: history is strictly append-only — dispatching any event list
appends exactly the outcomes of its `FinishRoll` events, in order, so its
length grows by the number of completions and no prior entry is removed,
reordered or changed. -/
theorem history_append_only (w : Win) (es : List Message) :
    (runEvents w es).win.model.rolls = w.model.rolls ++ es.filterMap finishOutcome ∧
    (runEvents w es).win.model.rolls.length
      = w.model.rolls.length + (es.filterMap finishOutcome).length := by
  refine ⟨runEvents_rolls w es, ?_⟩
  simp [runEvents_rolls w es]

/-- C3: when the evaluator fails on an expression, the spawned task
delivers zero events, so dispatching its (empty) completion stream leaves
the state exactly as it was, spawns nothing and issues no view command. -/
theorem eval_failure_silent (eval : Evaluator) (s : String) (w : Win)
    (h : eval s = Option.none) :
    taskEvents eval s = [] ∧
    runEvents w (taskEvents eval s) = { win := w, spawned := [], cmds := [] } := by
  have ht : taskEvents eval s = [] := by
    simp [taskEvents, lazy_roll, connect_exec_ignore_err, h]
  exact ⟨ht, by simp [ht, runEvents]⟩

/-- C3 witness: a failing evaluation of `garbage` delivers no event and
leaves the initial state untouched. -/
theorem eval_failure_silent_witness :
    evalFail "garbage" = Option.none ∧
    (taskEvents evalFail "garbage" = [] ∧
      runEvents win0 (taskEvents evalFail "garbage")
        = { win := win0, spawned := [], cmds := [] }) :=
  ⟨rfl, eval_failure_silent evalFail "garbage" win0 rfl⟩

/-- C4: a `FinishRoll` rebuilds the entire row list from history, most
recently appended roll first; after completions for two outcomes in order,
the rows are the second outcome's row then the first outcome's row. -/
theorem rollCompleted_rebuilds (w : Win) (o o₁ o₂ : RollOutcome) :
    (update w (Message.FinishRoll o)).cmds
      = [ViewCmd.replaceRows (((w.model.rolls ++ [o]).map renderRow).reverse)] ∧
    (w.model.rolls = [] →
      (update (update w (Message.FinishRoll o₁)).win (Message.FinishRoll o₂)).cmds
        = [ViewCmd.replaceRows [renderRow o₂, renderRow o₁]]) := by
  constructor
  · simp [update, rebuildStore_eq_reverse_map]
  · intro h
    simp [update, rebuildStore_eq_reverse_map, h]

/-- C4 witness: completions for `1d20` (outcome 20) then `2d4` (outcome 5)
from the initial state render the `2d4` row first. -/
theorem rollCompleted_rebuilds_witness :
    win0.model.rolls = [] ∧
    ((update win0 (Message.FinishRoll outcome1d20)).cmds
        = [ViewCmd.replaceRows (((win0.model.rolls ++ [outcome1d20]).map renderRow).reverse)] ∧
      (update (update win0 (Message.FinishRoll outcome1d20)).win
          (Message.FinishRoll outcome2d4)).cmds
        = [ViewCmd.replaceRows [renderRow outcome2d4, renderRow outcome1d20]]) :=
  ⟨rfl, (rollCompleted_rebuilds win0 outcome1d20 outcome1d20 outcome2d4).1,
    (rollCompleted_rebuilds win0 outcome1d20 outcome1d20 outcome2d4).2 rfl⟩

/-- C5: handling `Quit` leaves the retained state untouched, stops the
loop, and from then on no event mutates the state, spawns a task or
issues a view command. -/
theorem quit_terminal (s : Session) (rest : List Message) :
    (sessionStep s Message.Quit).1.win = s.win ∧
    (sessionStep s Message.Quit).1.running = false ∧
    sessionRun (sessionStep s Message.Quit).1 rest
      = ((sessionStep s Message.Quit).1, [], []) := by
  have hw : (sessionStep s Message.Quit).1.win = s.win := by
    by_cases h : s.running = true
    · simp [sessionStep, h, update]
    · simp [sessionStep, h]
  have hr : (sessionStep s Message.Quit).1.running = false := by
    by_cases h : s.running = true
    · simp [sessionStep, h, update]
    · simp only [Bool.not_eq_true] at h
      simp [sessionStep, h]
  exact ⟨hw, hr, sessionRun_halted _ hr rest⟩

/-- C6 counterexample: the event vocabulary does not have five variants —
the `Message` enum has exactly four constructor tags. -/
theorem message_not_five_variants : ¬ (Fintype.card MessageTag = 5) := by
  decide

/-- C6 (amended to four variants): the event vocabulary is a closed tagged
union of exactly four variants, every representable event is one of them,
each tag is realized, and the dispatcher handles every event. -/
theorem message_closed_four_variants :
    Fintype.card MessageTag = 4 ∧
    Function.Surjective Message.tag ∧
    (∀ m : Message, m = Message.ChangeInput ∨ m = Message.StartRoll ∨
      (∃ o, m = Message.FinishRoll o) ∨ m = Message.Quit) ∧
    ∀ (w : Win) (m : Message), (update_checked w m).isSome = true := by
  refine ⟨by decide, ?_, ?_, ?_⟩
  · intro t
    cases t
    · exact ⟨Message.ChangeInput, rfl⟩
    · exact ⟨Message.StartRoll, rfl⟩
    · exact ⟨Message.FinishRoll { descriptor := "", outcome := 0 }, rfl⟩
    · exact ⟨Message.Quit, rfl⟩
  · intro m
    cases m <;> simp
  · intro w m
    cases m <;> simp [update_checked, input_get_text]

/-- C7: the dispatcher's handle step cannot fail — the only fallible
operation, unwrapping the entry text in the `ChangeInput` arm, always
succeeds, so `update_checked` returns a value for every event and state. -/
theorem handle_infallible (w : Win) (e : Message) :
    update_checked w e = Option.some (update w e) := by
  cases e <;> simp [update_checked, input_get_text]

/-- C8: each event touches only its own region — `ChangeInput` and
`StartRoll` leave history unchanged and issue exactly one input-text
command carrying the model's entry text; `FinishRoll` leaves the entry
text unchanged and issues exactly one rows command rebuilt from the
model's history; `Quit` issues no command. -/
theorem events_touch_own_region (w : Win) (o : RollOutcome) :
    ((update w Message.ChangeInput).win.model.rolls = w.model.rolls ∧
      (update w Message.ChangeInput).cmds
        = [ViewCmd.setInputText (update w Message.ChangeInput).win.model.textentry_content]) ∧
    ((update w Message.StartRoll).win.model.rolls = w.model.rolls ∧
      (update w Message.StartRoll).cmds
        = [ViewCmd.setInputText (update w Message.StartRoll).win.model.textentry_content]) ∧
    ((update w (Message.FinishRoll o)).win.model.textentry_content
        = w.model.textentry_content ∧
      (update w (Message.FinishRoll o)).cmds
        = [ViewCmd.replaceRows (rebuildStore (update w (Message.FinishRoll o)).win.model.rolls)]) ∧
    (update w Message.Quit).cmds = [] := by
  refine ⟨⟨?_, ?_⟩, ⟨?_, ?_⟩, ⟨?_, ?_⟩, ?_⟩ <;> simp [update]

/-- C9: a `ChangeInput` whose displayed text equals the current entry text
leaves the whole model (entry text and history) unchanged and still issues
a set-input-text command carrying that same text. -/
theorem changeInput_idempotent (w : Win) (h : w.inputText = w.model.textentry_content) :
    (update w Message.ChangeInput).win.model = w.model ∧
    (update w Message.ChangeInput).cmds
      = [ViewCmd.setInputText w.model.textentry_content] := by
  constructor
  · simp [update, h]
  · simp [update, h]

/-- C9 witness: re-sending the displayed text `2d6+1` changes nothing and
still issues the set-input-text command for `2d6+1`. -/
theorem changeInput_idempotent_witness :
    win1.inputText = win1.model.textentry_content ∧
    ((update win1 Message.ChangeInput).win.model = win1.model ∧
      (update win1 Message.ChangeInput).cmds
        = [ViewCmd.setInputText win1.model.textentry_content]) :=
  ⟨rfl, changeInput_idempotent win1 rfl⟩

/-- C10: submission has no non-emptiness precondition — `StartRoll` with an
empty entry still spawns a task for the empty expression, and when the
evaluator fails on it, the failure is silently discarded: zero events are
delivered. -/
theorem empty_submit_spawns (w : Win) (eval : Evaluator)
    (h1 : w.model.textentry_content = "") (h2 : eval "" = Option.none) :
    (update w Message.StartRoll).spawned = [""] ∧
    taskEvents eval "" = [] ∧
    runEvents (update w Message.StartRoll).win (taskEvents eval "")
      = { win := (update w Message.StartRoll).win, spawned := [], cmds := [] } := by
  have ht : taskEvents eval "" = [] := by
    simp [taskEvents, lazy_roll, connect_exec_ignore_err, h2]
  refine ⟨?_, ht, ?_⟩
  · simp [update, h1]
  · simp [ht, runEvents]

/-- C10 witness: submitting from the initial (empty) state spawns a task
for the empty expression, whose failing evaluation delivers nothing. -/
theorem empty_submit_spawns_witness :
    win0.model.textentry_content = "" ∧ evalFail "" = Option.none ∧
    ((update win0 Message.StartRoll).spawned = [""] ∧
      taskEvents evalFail "" = [] ∧
      runEvents (update win0 Message.StartRoll).win (taskEvents evalFail "")
        = { win := (update win0 Message.StartRoll).win, spawned := [], cmds := [] }) :=
  ⟨rfl, rfl, empty_submit_spawns win0 evalFail rfl rfl⟩

end D20
